import Mathlib

/-!
Verification of the process-supervisor core of a GUI development-server
manager.  The definitions below are a shallow embedding of the JavaScript
source (`src/serverManager.js` and the Electron main-window manager):
pure functions become Lean functions, the event-loop callbacks become
explicit state-transition functions on a `MgrState` record, and the OS
(process spawning, `ps`/`lsof` introspection) is supplied to each
transition as explicit input data.
-/

namespace GuiProcMan

/-- Result of the JavaScript `Number(x)` coercion: either an integer value
or a non-integer (NaN, Infinity, or a fractional value).  `Number(null) = 0`
and `Number(undefined) = NaN` are represented by `int 0` and `nonInt`. -/
inductive NumVal where
  | int (n : Int)
  | nonInt
deriving DecidableEq, Repr

/-- JavaScript truthiness of an optional number (null/undefined/0 are falsy). -/
def numOptTruthy : Option Int → Bool
  | some n => n != 0
  | none => false

/-- Embedding of `normalizePortValue` (serverManager.js lines 10-15):
coerce to a number, require an integer in `[1, 65535]`, otherwise `null`. -/
def normalizePortValue : NumVal → Option Int
  | NumVal.int n => if 1 ≤ n ∧ n ≤ 65535 then some n else none
  | NumVal.nonInt => none

/-- Embedding of the manual-server port defaulting rule used by
`addManualServer` (lines 106-107) and `updateServer` (lines 253-254):
an integer in `[1000, 65535]` is kept, anything else becomes `3000`. -/
def normalizeManualPort : NumVal → Int
  | NumVal.int n => if 1000 ≤ n ∧ n ≤ 65535 then n else 3000
  | NumVal.nonInt => 3000

/-- Substring test, embedding JavaScript `String.prototype.includes`
(for a non-empty pattern). -/
def strContains (s pat : String) : Bool :=
  decide ((s.splitOn pat).length > 1)

/-- Application of a command-line classifier to an optional command line,
embedding the falsy-guard `if (!commandLine) return false` shared by
`isProbablyNestCommandLine` and `isProbablyNonNestDevServer`
(serverManager.js lines 17-31).  The regex bodies of the two classifiers
are environment-dependent string tests; they are taken as the parameter
`pred`, and every theorem below holds for an arbitrary classifier. -/
def applyCmdLine (pred : String → Bool) : Option String → Bool
  | some s => if s = "" then false else pred s
  | none => false

/-- Listening-socket candidate as built by `detectListeningCandidatesByPidTree`
/ `detectListeningCandidatesByPgid` and enriched with the owner command line
in `waitAndSyncPortFromPid`: `{ port, pid, command, commandLine, isRoot }`. -/
structure Candidate where
  port : Int
  pid : Int
  command : String
  commandLine : Option String
  isRoot : Bool
deriving DecidableEq, Repr

/-- Debugger ports penalized by the scorer (`debugPorts`, line 959). -/
def isDebugPort (p : Int) : Bool :=
  p == 9229 || p == 9230 || p == 9239

/-- Common development-server ports preferred by the scorer
(`commonServerPorts`, line 960). -/
def isCommonServerPort (p : Int) : Bool :=
  p == 3000 || p == 3001 || p == 4000 || p == 5000 ||
  p == 8000 || p == 8080 || p == 8888 || p == 9000

/-- Embedding of the candidate scoring inside `selectBestPortCandidate`
(serverManager.js lines 962-992).  Lower is better; the accumulator starts
at 100 and each weighted preference adds or subtracts its penalty. -/
def scoreCandidate (isNestCL isNonNestCL : String → Bool)
    (normalizedExpectedPort : Option Int) (isNestContext : Bool)
    (c : Candidate) : Int :=
  let s : Int := 100
  let s := if numOptTruthy normalizedExpectedPort = true ∧
      normalizedExpectedPort = some c.port then s - 100 else s
  let s := if c.isRoot = true then s - 40 else s
  let s := if c.command = "node" then s - 25 else s
  let s := if c.command ≠ "" ∧ strContains c.command "node" = true then s - 10 else s
  let s := if applyCmdLine isNestCL c.commandLine = true then s - 60 else s
  let s := if applyCmdLine isNonNestCL c.commandLine = true then s + 30 else s
  let s := if 3000 ≤ c.port ∧ c.port ≤ 9000 ∧ isDebugPort c.port = false then s - 30 else s
  let s := if isCommonServerPort c.port = true then s - 20 else s
  let s := if isDebugPort c.port = true then s + 50 else s
  let s := if isNestContext = true ∧ 3000 ≤ c.port ∧ c.port < 5000 then s - 70 else s
  let s := if isNestContext = true ∧ 5000 ≤ c.port ∧ isDebugPort c.port = false then s + 30 else s
  s

/-- Comparator step of the stable sort in `selectBestPortCandidate`
(lines 994-999): a challenger replaces the accumulator exactly when it is
strictly smaller in the lexicographic (score, port) order, so the fold
below returns the first element of the sorted array. -/
def chooseBetter (acc c : Candidate × Int) : Candidate × Int :=
  if c.2 < acc.2 ∨ (c.2 = acc.2 ∧ c.1.port < acc.1.port) then c else acc

/-- First element of the array sorted by ascending score with ties broken
toward the lower port number (`scored.sort(...)` followed by `scored[0]`). -/
def pickBest : List (Candidate × Int) → Option (Candidate × Int)
  | [] => none
  | h :: t => some (t.foldl chooseBetter h)

/-- Normalization of the expected-port argument performed on entry of
`selectBestPortCandidate` (`normalizePortValue(expectedPort)`, line 952);
the stored port is either `null` or an integer. -/
def normExpected (expectedPort : Option Int) : Option Int :=
  expectedPort.bind (fun n => normalizePortValue (NumVal.int n))

/-- Embedding of `selectBestPortCandidate` (serverManager.js lines 949-1002):
an exact match with the normalized expected port short-circuits, otherwise
the scored candidates are sorted and the best one returned. -/
def selectBestPortCandidate (isNestCL isNonNestCL : String → Bool)
    (candidates : List Candidate) (expectedPort : Option Int)
    (isNestContext : Bool) : Option Candidate :=
  if candidates.isEmpty then none else
  let nep := normExpected expectedPort
  if numOptTruthy nep = true ∧ candidates.any (fun c => decide (nep = some c.port)) = true then
    candidates.find? (fun c => decide (nep = some c.port))
  else
    let scored := candidates.map
      (fun c => (c, scoreCandidate isNestCL isNonNestCL nep isNestContext c))
    (pickBest scored).map (fun x => x.1)

/-- Preorder used by the sort comparator: not-strictly-worse in the
lexicographic (score, port) order. -/
def keyLe (a b : Candidate × Int) : Prop :=
  a.2 < b.2 ∨ (a.2 = b.2 ∧ a.1.port ≤ b.1.port)

theorem keyLe_refl (a : Candidate × Int) : keyLe a a :=
  Or.inr ⟨rfl, le_refl _⟩

theorem keyLe_trans {a b c : Candidate × Int} (h1 : keyLe a b) (h2 : keyLe b c) :
    keyLe a c := by
  rcases h1 with h1 | ⟨h1e, h1p⟩ <;> rcases h2 with h2 | ⟨h2e, h2p⟩
  · exact Or.inl (lt_trans h1 h2)
  · exact Or.inl (h2e ▸ h1)
  · exact Or.inl (h1e ▸ h2)
  · exact Or.inr ⟨h1e.trans h2e, le_trans h1p h2p⟩

theorem chooseBetter_eq_or (a c : Candidate × Int) :
    chooseBetter a c = a ∨ chooseBetter a c = c := by
  unfold chooseBetter
  split
  · exact Or.inr rfl
  · exact Or.inl rfl

theorem chooseBetter_le_left (a c : Candidate × Int) :
    keyLe (chooseBetter a c) a := by
  unfold chooseBetter
  split
  · rename_i h
    rcases h with h | ⟨he, hp⟩
    · exact Or.inl h
    · exact Or.inr ⟨he, le_of_lt hp⟩
  · exact keyLe_refl a

theorem chooseBetter_le_right (a c : Candidate × Int) :
    keyLe (chooseBetter a c) c := by
  unfold chooseBetter
  split
  · exact keyLe_refl c
  · rename_i h
    unfold keyLe
    omega

theorem foldl_chooseBetter_mem (t : List (Candidate × Int)) (h : Candidate × Int) :
    t.foldl chooseBetter h = h ∨ t.foldl chooseBetter h ∈ t := by
  induction t generalizing h with
  | nil => exact Or.inl rfl
  | cons c t ih =>
    simp only [List.foldl_cons]
    rcases ih (chooseBetter h c) with heq | hmem
    · rw [heq]
      rcases chooseBetter_eq_or h c with h1 | h1
      · exact Or.inl h1
      · exact Or.inr (by rw [h1]; exact List.mem_cons_self c t)
    · exact Or.inr (List.mem_cons_of_mem c hmem)

theorem foldl_chooseBetter_le_init (t : List (Candidate × Int)) (h : Candidate × Int) :
    keyLe (t.foldl chooseBetter h) h := by
  induction t generalizing h with
  | nil => exact keyLe_refl h
  | cons c t ih =>
    simp only [List.foldl_cons]
    exact keyLe_trans (ih (chooseBetter h c)) (chooseBetter_le_left h c)

theorem foldl_chooseBetter_le_mem (t : List (Candidate × Int)) (h : Candidate × Int) :
    ∀ x ∈ t, keyLe (t.foldl chooseBetter h) x := by
  induction t generalizing h with
  | nil => intro x hx; cases hx
  | cons c t ih =>
    intro x hx
    simp only [List.foldl_cons]
    rcases List.mem_cons.mp hx with rfl | hx
    · exact keyLe_trans (foldl_chooseBetter_le_init t (chooseBetter h x))
        (chooseBetter_le_right h x)
    · exact ih (chooseBetter h c) x hx

theorem pickBest_spec (l : List (Candidate × Int)) (r : Candidate × Int)
    (hr : pickBest l = some r) : r ∈ l ∧ ∀ x ∈ l, keyLe r x := by
  cases l with
  | nil => cases hr
  | cons h t =>
    simp only [pickBest, Option.some.injEq] at hr
    subst hr
    refine ⟨?_, ?_⟩
    · rcases foldl_chooseBetter_mem t h with heq | hmem
      · rw [heq]; exact List.mem_cons_self h t
      · exact List.mem_cons_of_mem h hmem
    · intro x hx
      rcases List.mem_cons.mp hx with rfl | hx
      · exact foldl_chooseBetter_le_init t x
      · exact foldl_chooseBetter_le_mem t h x hx

theorem find?_eq_some_of_exists {α : Type} (l : List α) (p : α → Bool)
    (h : ∃ x ∈ l, p x = true) : ∃ r, l.find? p = some r ∧ p r = true := by
  induction l with
  | nil =>
    rcases h with ⟨x, hx, _⟩
    cases hx
  | cons a t ih =>
    by_cases ha : p a = true
    · exact ⟨a, by simp [List.find?_cons, ha], ha⟩
    · rcases h with ⟨x, hx, hpx⟩
      rcases List.mem_cons.mp hx with rfl | hx
      · exact absurd hpx ha
      · rcases ih ⟨x, hx, hpx⟩ with ⟨r, hr, hpr⟩
        refine ⟨r, ?_, hpr⟩
        simpa [List.find?_cons, ha] using hr

/-- C3: for every non-empty candidate list and every configured port `p`
(a user-configured port is an integer in `[1, 65535]`): if some candidate
listens on `p` then `selectBestPortCandidate` returns a candidate whose port
is `p` (the exact match wins outright); and in the scoring branch (no
candidate matches the normalized expected port) the returned candidate is a
member of the list minimizing the score, with ties broken toward the lower
port number: every other candidate either scores strictly higher or scores
equal with a port that is at least the returned one. -/
theorem claim3_select_best_port (isNestCL isNonNestCL : String → Bool)
    (cands : List Candidate) (ctx : Bool) (p : Int)
    (hp1 : 1 ≤ p) (hp2 : p ≤ 65535) :
    ((∃ c ∈ cands, c.port = p) →
      ∃ r, selectBestPortCandidate isNestCL isNonNestCL cands (some p) ctx = some r ∧
        r.port = p)
    ∧ (∀ ep r,
        selectBestPortCandidate isNestCL isNonNestCL cands ep ctx = some r →
        (¬ ∃ c ∈ cands, normExpected ep = some c.port) →
        r ∈ cands ∧ ∀ c ∈ cands,
          scoreCandidate isNestCL isNonNestCL (normExpected ep) ctx r <
              scoreCandidate isNestCL isNonNestCL (normExpected ep) ctx c ∨
            (scoreCandidate isNestCL isNonNestCL (normExpected ep) ctx r =
                scoreCandidate isNestCL isNonNestCL (normExpected ep) ctx c ∧
              r.port ≤ c.port)) := by
  constructor
  · intro hmatch
    have hne : cands.isEmpty = false := by
      rcases hmatch with ⟨c, hc, _⟩
      cases cands with
      | nil => cases hc
      | cons a t => rfl
    have hnep : normExpected (some p) = some p := by
      simp [normExpected, normalizePortValue, hp1, hp2]
    have htruthy : numOptTruthy (normExpected (some p)) = true := by
      rw [hnep]
      simp [numOptTruthy]
      omega
    have hany : cands.any (fun c => decide (normExpected (some p) = some c.port)) = true := by
      rcases hmatch with ⟨c, hc, hcp⟩
      rw [List.any_eq_true]
      exact ⟨c, hc, by simp [hnep, hcp]⟩
    rcases find?_eq_some_of_exists cands
        (fun c => decide (normExpected (some p) = some c.port))
        (by
          rcases hmatch with ⟨c, hc, hcp⟩
          exact ⟨c, hc, by simp [hnep, hcp]⟩) with ⟨r, hr, hpr⟩
    refine ⟨r, ?_, ?_⟩
    · simp only [selectBestPortCandidate, hne, Bool.false_eq_true, if_false]
      rw [if_pos ⟨htruthy, hany⟩]
      exact hr
    · have := of_decide_eq_true hpr
      rw [hnep] at this
      exact (Option.some_inj.mp this).symm
  · intro ep r hsel hno
    have hne : cands.isEmpty = false := by
      cases cands with
      | nil => simp [selectBestPortCandidate] at hsel
      | cons a t => rfl
    have hany : cands.any (fun c => decide (normExpected ep = some c.port)) = false := by
      rw [Bool.eq_false_iff]
      intro hc
      rw [List.any_eq_true] at hc
      rcases hc with ⟨c, hc, hcp⟩
      exact hno ⟨c, hc, of_decide_eq_true hcp⟩
    have hcond : ¬ (numOptTruthy (normExpected ep) = true ∧
        cands.any (fun c => decide (normExpected ep = some c.port)) = true) := by
      intro ⟨_, h2⟩
      rw [hany] at h2
      cases h2
    simp only [selectBestPortCandidate, hne, Bool.false_eq_true, if_false] at hsel
    rw [if_neg hcond] at hsel
    rcases Option.map_eq_some'.mp hsel with ⟨pair, hpair, hfst⟩
    rcases pickBest_spec _ pair hpair with ⟨hmem, hmin⟩
    rcases List.mem_map.mp hmem with ⟨c0, hc0, hc0e⟩
    have hr : r = c0 := by rw [← hfst, ← hc0e]
    subst hr
    have hsnd : pair.2 = scoreCandidate isNestCL isNonNestCL (normExpected ep) ctx r := by
      rw [← hc0e]
    refine ⟨hc0, ?_⟩
    intro c hc
    have := hmin (c, scoreCandidate isNestCL isNonNestCL (normExpected ep) ctx c)
        (List.mem_map.mpr ⟨c, hc, rfl⟩)
    unfold keyLe at this
    rw [← hc0e] at this
    simpa using this

theorem claim3_witness :
    ∃ r, selectBestPortCandidate (fun _ => false) (fun _ => false)
        [Candidate.mk 3000 11 "node" none false] (some 3000) false = some r ∧
      r.port = 3000 :=
  (claim3_select_best_port (fun _ => false) (fun _ => false)
      [Candidate.mk 3000 11 "node" none false] false 3000
      (by decide) (by decide)).1
    ⟨Candidate.mk 3000 11 "node" none false, List.mem_singleton.mpr rfl, rfl⟩

/-! ### Data model of the Process Supervisor -/

/-- One log line: `{ level, message }` (the wall-clock timestamp attached by
`addLog` is not modelled; it never influences control flow). -/
structure LogEntry where
  level : String
  message : String
deriving DecidableEq, Repr

/-- Persisted runtime record written by `persistServerRuntime`
(serverManager.js lines 427-434): `{ id, name, path, command, rootPid,
startedAt }`. -/
structure RuntimeRecord where
  id : String
  name : String
  path : String
  command : String
  rootPid : Int
  startedAt : Int
deriving DecidableEq, Repr

/-- In-memory server object kept in the `servers` map.  Fields that the
JavaScript object may lack (undefined) or hold null in are `Option`;
`cpu` is kept as the numeric value of the stored string. -/
structure Server where
  id : String
  name : String
  path : String
  command : String
  port : Option Int
  status : String
  pid : Option Int
  startTime : Option Int
  error : Option String
  cpu : Option Rat
  memory : Option Rat
  actualPort : Option Int
  isManual : Bool
deriving DecidableEq, Repr

/-- Lookup in an association list, embedding `Map.prototype.get`. -/
def getEntry {β : Type} : List (String × β) → String → Option β
  | [], _ => none
  | (k2, v) :: t, k => if k2 = k then some v else getEntry t k

/-- Insert-or-replace in an association list, embedding `Map.prototype.set`. -/
def setEntry {β : Type} : List (String × β) → String → β → List (String × β)
  | [], k, v => [(k, v)]
  | (k2, v2) :: t, k, v =>
    if k2 = k then (k, v) :: t else (k2, v2) :: setEntry t k v

/-- Removal from an association list, embedding `Map.prototype.delete`. -/
def eraseEntry {β : Type} : List (String × β) → String → List (String × β)
  | [], _ => []
  | (k2, v2) :: t, k =>
    if k2 = k then eraseEntry t k else (k2, v2) :: eraseEntry t k

theorem getEntry_setEntry_self {β : Type} (m : List (String × β)) (k : String) (v : β) :
    getEntry (setEntry m k v) k = some v := by
  induction m with
  | nil => simp [setEntry, getEntry]
  | cons e t ih =>
    by_cases h : e.1 = k
    · simp [setEntry, h, getEntry]
    · simp [setEntry, h, getEntry, ih]

theorem getEntry_setEntry_ne {β : Type} (m : List (String × β)) (k k2 : String) (v : β)
    (h : k2 ≠ k) : getEntry (setEntry m k v) k2 = getEntry m k2 := by
  have hk : ¬ k = k2 := fun he => h he.symm
  induction m with
  | nil => simp [setEntry, getEntry, hk]
  | cons e t ih =>
    obtain ⟨k1, v1⟩ := e
    by_cases he : k1 = k
    · subst he
      simp [setEntry, getEntry, hk]
    · simp [setEntry, he, getEntry, ih]

theorem getEntry_eraseEntry_self {β : Type} (m : List (String × β)) (k : String) :
    getEntry (eraseEntry m k) k = none := by
  induction m with
  | nil => simp [eraseEntry, getEntry]
  | cons e t ih =>
    obtain ⟨k1, v1⟩ := e
    by_cases h : k1 = k
    · simp [eraseEntry, h, ih]
    · simp [eraseEntry, h, getEntry, ih]

theorem getEntry_eraseEntry_ne {β : Type} (m : List (String × β)) (k k2 : String)
    (h : k2 ≠ k) : getEntry (eraseEntry m k) k2 = getEntry m k2 := by
  have hk : ¬ k = k2 := fun he => h he.symm
  induction m with
  | nil => simp [eraseEntry]
  | cons e t ih =>
    obtain ⟨k1, v1⟩ := e
    by_cases he : k1 = k
    · subst he
      simp [eraseEntry, getEntry, hk, ih]
    · simp [eraseEntry, he, getEntry, ih]

/-- The supervisor state: the three ambient maps of `ServerManager`
(`servers`, `processes`, `logs`), the persisted `serverRuntimes` store, and
the set of ids with an active `monitor_` interval. -/
structure MgrState where
  servers : List (String × Server)
  processes : List (String × Int)
  logs : List (String × List LogEntry)
  runtimes : List (String × RuntimeRecord)
  monitors : List String
deriving DecidableEq, Repr

/-- Events emitted toward the UI layer. -/
inductive MEvent where
  | statusChanged (s : Server)
  | logUpdate (id : String) (e : LogEntry)
deriving DecidableEq, Repr

/-- Statuses carried by the state-changed events of a run, in emission
order. -/
def statusTrace (evs : List MEvent) : List String :=
  evs.filterMap (fun e => match e with
    | MEvent.statusChanged s => some s.status
    | MEvent.logUpdate _ _ => none)

/-- Whitespace trim (`String.prototype.trim`), modelled structurally over
the character list so that it evaluates on concrete inputs. -/
def strTrim (s : String) : String :=
  String.mk
    (((s.data.dropWhile Char.isWhitespace).reverse.dropWhile
      Char.isWhitespace).reverse)

/-- Embedding of `addLog` (serverManager.js lines 655-678): drop empty or
over-long messages, append, and on overflow past 500 entries drop the
oldest 100 in one batch. -/
def addLog (st : MgrState) (serverId level message : String) :
    MgrState × List MEvent :=
  match getEntry st.logs serverId with
  | none => (st, [])
  | some logs =>
    let trimmed := strTrim message
    if trimmed = "" ∨ trimmed.length > 2000 then (st, [])
    else
      let entry : LogEntry := ⟨level, trimmed⟩
      let logs := logs ++ [entry]
      let logs := if logs.length > 500 then logs.drop 100 else logs
      ({ st with logs := setEntry st.logs serverId logs },
        [MEvent.logUpdate serverId entry])

/-- PORT entry of the child environment built by `startServer`
(serverManager.js lines 354-361): injected exactly when `server.port` is
truthy (`if (server.port) childEnv.PORT = String(server.port)`). -/
def childEnvPORT (server : Server) : Option String :=
  if numOptTruthy server.port = true then server.port.map (fun p => toString p)
  else none

/-- Synchronous outcome of the `spawn` call: the OS handed back a child pid,
or `spawn` threw (caught by the `catch` block of `startServer`). -/
inductive SpawnOutcome where
  | ok (pid : Int)
  | threw (msg : String)
deriving DecidableEq, Repr

/-- Result of a `startServer` call, together with the observable effects of
the call: emitted events, whether an OS process was spawned, and the PORT
value (if any) injected into the spawned child environment. -/
structure StartResult where
  state : MgrState
  success : Bool
  error : Option String
  events : List MEvent
  spawned : Bool
  envPORT : Option String
deriving DecidableEq, Repr

/-- Synchronous part of `startResourceMonitoring` (serverManager.js lines
751-770): clear a previous `monitor_` interval, seed the readings at zero,
emit, and register the new interval. -/
def startResourceMonitoringInit (st : MgrState) (serverId : String) :
    MgrState × List MEvent :=
  match getEntry st.servers serverId with
  | none =>
    ({ st with monitors := st.monitors.filter (fun i => i ≠ serverId) }, [])
  | some server =>
    let server2 := { server with cpu := some 0, memory := some 0 }
    ({ st with
        servers := setEntry st.servers serverId server2,
        monitors := serverId :: st.monitors.filter (fun i => i ≠ serverId) },
      [MEvent.statusChanged server2])

/-- Embedding of `startServer` (serverManager.js lines 342-451) up to its
synchronous return.  The asynchronous callbacks it registers (`close`,
`error`, the sampler ticks, the port-discovery loop) are separate
transitions below, as they run as later event-loop turns. -/
def startServer (st : MgrState) (serverId : String) (spawn : SpawnOutcome)
    (now : Int) : StartResult :=
  match getEntry st.servers serverId, getEntry st.processes serverId with
  | none, _ =>
    ⟨st, false, some "Server is already running or not found", [], false, none⟩
  | some _, some _ =>
    ⟨st, false, some "Server is already running or not found", [], false, none⟩
  | some server, none =>
    match spawn with
    | SpawnOutcome.threw msg =>
      let server2 := { server with status := "error", error := some msg }
      ⟨{ st with servers := setEntry st.servers serverId server2 },
        false, some msg, [MEvent.statusChanged server2], false,
        childEnvPORT server⟩
    | SpawnOutcome.ok pid =>
      let st1 := { st with processes := setEntry st.processes serverId pid }
      let server2 := { server with
        status := "running", pid := some pid, startTime := some now,
        error := none }
      let st2 := { st1 with servers := setEntry st1.servers serverId server2 }
      let record : RuntimeRecord :=
        ⟨serverId, server.name, server.path, server.command, pid, now⟩
      let st3 := { st2 with runtimes := setEntry st2.runtimes serverId record }
      let ev1 := [MEvent.statusChanged server2]
      let logMsg := "Server starting with command: \"" ++ server.command ++
        "\" (PID: " ++ toString pid ++ ")"
      let a := addLog st3 serverId "info" logMsg
      let b := startResourceMonitoringInit a.1 serverId
      ⟨b.1, true, none, ev1 ++ a.2 ++ b.2, true, childEnvPORT server⟩

/-- Outcome of the termination protocol of `stopServer` as observed across
its awaited steps: either the SIGTERM round proceeds (an ESRCH from the
group signal is swallowed) and the tracked process disappears within the 5s
grace window, or it is still alive at the end of the window and a SIGKILL
is issued, or the group signal throws a non-ESRCH error which the outer
catch reports as a failure. -/
inductive StopOutcome where
  | exitedInGrace
  | forcedKillAfterGrace
  | threw (msg : String)
deriving DecidableEq, Repr

/-- Result of a `stopServer` call. -/
structure StopResult where
  state : MgrState
  success : Bool
  error : Option String
  events : List MEvent
deriving DecidableEq, Repr

/-- Embedding of `stopServer` (serverManager.js lines 453-523).  The `close`
callback that fires when the child actually exits is `handleProcessClose`
below; it runs as its own event-loop turn. -/
def stopServer (st : MgrState) (serverId : String) (outcome : StopOutcome) :
    StopResult :=
  match getEntry st.processes serverId with
  | none => ⟨st, false, some "Server process not found", []⟩
  | some _ =>
    let a :=
      match getEntry st.servers serverId with
      | some server =>
        let server2 := { server with status := "stopping" }
        (({ st with servers := setEntry st.servers serverId server2 } : MgrState),
          [MEvent.statusChanged server2])
      | none => (st, ([] : List MEvent))
    let b := addLog a.1 serverId "info" "Stopping server..."
    match outcome with
    | StopOutcome.threw msg =>
      let c := addLog b.1 serverId "error" ("Failed to stop server: " ++ msg)
      ⟨c.1, false, some msg, a.2 ++ b.2 ++ c.2⟩
    | StopOutcome.exitedInGrace => ⟨b.1, true, none, a.2 ++ b.2⟩
    | StopOutcome.forcedKillAfterGrace =>
      let c := addLog b.1 serverId "info" "Server forcefully killed."
      ⟨c.1, true, none, a.2 ++ b.2 ++ c.2⟩

/-- String interpolation of a possibly-null exit code (`${code}`). -/
def codeToString : Option Int → String
  | some n => toString n
  | none => "null"

/-- Embedding of the `close` handler registered by `startServer`
(serverManager.js lines 384-407): fired by the OS when the spawned process
exits; `code` is null when the child was terminated by a signal. -/
def handleProcessClose (st : MgrState) (serverId : String) (code : Option Int) :
    MgrState × List MEvent :=
  let a :=
    match getEntry st.servers serverId with
    | some server =>
      let server2 := { server with
        status := if code = some 0 then "stopped" else "error",
        pid := none, cpu := none, memory := none,
        error := if code = some 0 then none
          else some ("Process exited with code " ++ codeToString code) }
      (({ st with servers := setEntry st.servers serverId server2 } : MgrState),
        [MEvent.statusChanged server2])
    | none => (st, ([] : List MEvent))
  let st2 := { a.1 with processes := eraseEntry a.1.processes serverId }
  let st3 := { st2 with runtimes := eraseEntry st2.runtimes serverId }
  let st4 := { st3 with monitors := st3.monitors.filter (fun i => i ≠ serverId) }
  if code = some 0 then (st4, a.2)
  else
    let b := addLog st4 serverId "error"
      ("Process exited with code " ++ codeToString code)
    (b.1, a.2 ++ b.2)

/-- Incoming server configuration as submitted from the UI (add/update
dialogs); `port` is whatever `Number(serverConfig.port)` yields. -/
structure ServerConfigIn where
  id : String
  name : String
  path : String
  command : String
  port : NumVal
deriving DecidableEq, Repr

/-- Embedding of `addManualServer` (serverManager.js lines 94-122): reject a
duplicate id (the source throws), normalize the port with the 3000 default,
and register the server as stopped.  The copy pushed into the persisted
`manualServers` list carries the same normalized port. -/
def addManualServer (st : MgrState) (cfg : ServerConfigIn) : MgrState × Bool :=
  if (getEntry st.servers cfg.id).isSome then (st, false)
  else
    let normalizedPort := normalizeManualPort cfg.port
    let server : Server :=
      { id := cfg.id, name := cfg.name, path := cfg.path, command := cfg.command,
        port := some normalizedPort, status := "stopped", pid := none,
        startTime := none, error := none, cpu := none, memory := none,
        actualPort := none, isManual := true }
    ({ st with
        servers := setEntry st.servers cfg.id server,
        logs := setEntry st.logs cfg.id [] }, true)

/-- Embedding of `updateServer` (serverManager.js lines 207-285): stop first
when running, replace the fields with the port normalized through the 3000
default, reset the runtime fields to a stopped state, and schedule a restart
(reported in the last component) when the server had been running.  The
external-store synchronization applies the same normalization and is not
tracked here. -/
def updateServer (st : MgrState) (upd : ServerConfigIn) (outcome : StopOutcome) :
    MgrState × Bool × Option String × Bool :=
  match getEntry st.servers upd.id with
  | none => (st, false, some "Server not found", false)
  | some server =>
    let wasRunning := server.status = "running"
    let st1 := if wasRunning then (stopServer st upd.id outcome).state else st
    let base := (getEntry st1.servers upd.id).getD server
    let server2 := { base with
      name := upd.name, path := upd.path, command := upd.command,
      port := some (normalizeManualPort upd.port),
      status := "stopped", pid := none, startTime := none, error := none,
      cpu := none, memory := none }
    ({ st1 with servers := setEntry st1.servers upd.id server2 },
      true, none, wasRunning)

/-! ### Helper lemmas about the transitions -/

theorem addLog_preserves (st : MgrState) (serverId level message : String) :
    (addLog st serverId level message).1.servers = st.servers ∧
    (addLog st serverId level message).1.processes = st.processes ∧
    (addLog st serverId level message).1.runtimes = st.runtimes ∧
    (addLog st serverId level message).1.monitors = st.monitors := by
  unfold addLog
  cases getEntry st.logs serverId with
  | none => exact ⟨rfl, rfl, rfl, rfl⟩
  | some logs =>
    by_cases hc : strTrim message = "" ∨ (strTrim message).length > 2000
    · simp [hc]
    · simp [hc]

theorem addLog_servers (st : MgrState) (serverId level message : String) :
    (addLog st serverId level message).1.servers = st.servers :=
  (addLog_preserves st serverId level message).1

theorem addLog_processes (st : MgrState) (serverId level message : String) :
    (addLog st serverId level message).1.processes = st.processes :=
  (addLog_preserves st serverId level message).2.1

theorem addLog_runtimes (st : MgrState) (serverId level message : String) :
    (addLog st serverId level message).1.runtimes = st.runtimes :=
  (addLog_preserves st serverId level message).2.2.1

theorem addLog_monitors (st : MgrState) (serverId level message : String) :
    (addLog st serverId level message).1.monitors = st.monitors :=
  (addLog_preserves st serverId level message).2.2.2

theorem statusTrace_append (a b : List MEvent) :
    statusTrace (a ++ b) = statusTrace a ++ statusTrace b := by
  unfold statusTrace
  exact List.filterMap_append a b _

theorem statusTrace_addLog (st : MgrState) (serverId level message : String) :
    statusTrace (addLog st serverId level message).2 = [] := by
  unfold addLog
  cases getEntry st.logs serverId with
  | none => rfl
  | some logs =>
    by_cases hc : strTrim message = "" ∨ (strTrim message).length > 2000
    · simp only [if_pos hc]
      rfl
    · simp only [if_neg hc]
      rfl

/-! ### Claims about start / stop / exit -/

/-- C1: a `start` on an id with a live tracked process (an entry in the
`processes` map) returns the failure result without spawning anything, and
the whole state — in particular the `servers` and `processes` entries for
that id — is unchanged. -/
theorem claim1_start_already_running (st : MgrState) (serverId : String)
    (spawn : SpawnOutcome) (now p : Int)
    (h : getEntry st.processes serverId = some p) :
    startServer st serverId spawn now =
      ⟨st, false, some "Server is already running or not found", [], false, none⟩ ∧
    (startServer st serverId spawn now).state = st ∧
    getEntry (startServer st serverId spawn now).state.servers serverId =
      getEntry st.servers serverId ∧
    getEntry (startServer st serverId spawn now).state.processes serverId = some p ∧
    (startServer st serverId spawn now).spawned = false := by
  have h1 : startServer st serverId spawn now =
      ⟨st, false, some "Server is already running or not found", [], false, none⟩ := by
    cases hs : getEntry st.servers serverId <;> simp [startServer, h, hs]
  refine ⟨h1, by rw [h1], by rw [h1], by rw [h1]; exact h, by rw [h1]⟩

/-- Concrete server used by the witnesses below. -/
def sampleServerA : Server :=
  { id := "a", name := "A", path := "/tmp/a", command := "npm start",
    port := some 3000, status := "running", pid := some 10, startTime := some 0,
    error := none, cpu := none, memory := none, actualPort := none,
    isManual := true }

/-- Concrete supervisor state with one running tracked server. -/
def sampleBusyState : MgrState :=
  { servers := [("a", sampleServerA)], processes := [("a", 10)],
    logs := [("a", [])], runtimes := [], monitors := [] }

theorem claim1_witness :
    getEntry sampleBusyState.processes "a" = some 10 ∧
    startServer sampleBusyState "a" (SpawnOutcome.ok 99) 5 =
      ⟨sampleBusyState, false, some "Server is already running or not found",
        [], false, none⟩ :=
  ⟨rfl, (claim1_start_already_running sampleBusyState "a"
    (SpawnOutcome.ok 99) 5 10 rfl).1⟩

/-- C7: a `stop` on an id with no tracked process returns the failure result
and is a no-op: the whole state — status, pid, logs, and the persisted
runtime record for the id — is unchanged. -/
theorem claim7_stop_not_running (st : MgrState) (serverId : String)
    (outcome : StopOutcome)
    (h : getEntry st.processes serverId = none) :
    stopServer st serverId outcome =
      ⟨st, false, some "Server process not found", []⟩ ∧
    (stopServer st serverId outcome).state = st ∧
    getEntry (stopServer st serverId outcome).state.servers serverId =
      getEntry st.servers serverId ∧
    getEntry (stopServer st serverId outcome).state.logs serverId =
      getEntry st.logs serverId ∧
    getEntry (stopServer st serverId outcome).state.runtimes serverId =
      getEntry st.runtimes serverId := by
  have h1 : stopServer st serverId outcome =
      ⟨st, false, some "Server process not found", []⟩ := by
    simp [stopServer, h]
  refine ⟨h1, by rw [h1], by rw [h1], by rw [h1], by rw [h1]⟩

theorem claim7_witness :
    getEntry (MgrState.mk [("a", sampleServerA)] [] [("a", [])] [] []).processes
        "a" = none ∧
    stopServer (MgrState.mk [("a", sampleServerA)] [] [("a", [])] [] []) "a"
        StopOutcome.exitedInGrace =
      ⟨MgrState.mk [("a", sampleServerA)] [] [("a", [])] [] [],
        false, some "Server process not found", []⟩ :=
  ⟨rfl, (claim7_stop_not_running
    (MgrState.mk [("a", sampleServerA)] [] [("a", [])] [] []) "a"
    StopOutcome.exitedInGrace rfl).1⟩

/-- C6: when the OS reports that a tracked process exited with code `c`, the
server's status becomes `stopped` for `c = 0` and `error` (with the code
recorded in the error field) otherwise; the tracked process entry, the
persisted runtime record, and the `monitor_` interval for the id are all
removed. -/
theorem claim6_process_exit (st : MgrState) (serverId : String) (c : Int)
    (server : Server)
    (h : getEntry st.servers serverId = some server) :
    (∃ server2,
      getEntry (handleProcessClose st serverId (some c)).1.servers serverId =
        some server2 ∧
      server2.status = (if c = 0 then "stopped" else "error") ∧
      server2.error = (if c = 0 then none
        else some ("Process exited with code " ++ toString c)) ∧
      server2.pid = none) ∧
    getEntry (handleProcessClose st serverId (some c)).1.processes serverId = none ∧
    getEntry (handleProcessClose st serverId (some c)).1.runtimes serverId = none ∧
    serverId ∉ (handleProcessClose st serverId (some c)).1.monitors := by
  by_cases hc : c = 0
  · subst hc
    have hstep : (handleProcessClose st serverId (some 0)).1 =
        { servers := setEntry st.servers serverId
            ({ server with
                status := "stopped", pid := none, cpu := none,
                memory := none, error := none }),
          processes := eraseEntry st.processes serverId,
          logs := st.logs,
          runtimes := eraseEntry st.runtimes serverId,
          monitors := st.monitors.filter (fun i => i ≠ serverId) } := by
      unfold handleProcessClose
      rw [h]
      rfl
    rw [hstep]
    refine ⟨⟨_, getEntry_setEntry_self _ _ _, ?_, ?_, ?_⟩, ?_, ?_, ?_⟩
    · simp
    · simp
    · rfl
    · exact getEntry_eraseEntry_self _ _
    · exact getEntry_eraseEntry_self _ _
    · simp [List.mem_filter]
  · have hcs : ¬ ((some c : Option Int) = some 0) := by simp [hc]
    have hstep : (handleProcessClose st serverId (some c)).1 =
        (addLog
          { servers := setEntry st.servers serverId
              ({ server with
                  status := "error", pid := none, cpu := none,
                  memory := none,
                  error := some ("Process exited with code " ++ toString c) }),
            processes := eraseEntry st.processes serverId,
            logs := st.logs,
            runtimes := eraseEntry st.runtimes serverId,
            monitors := st.monitors.filter (fun i => i ≠ serverId) }
          serverId "error" ("Process exited with code " ++ toString c)).1 := by
      unfold handleProcessClose
      rw [h]
      simp only [if_neg hcs]
      rfl
    rw [hstep]
    refine ⟨⟨{ server with
        status := "error", pid := none, cpu := none, memory := none,
        error := some ("Process exited with code " ++ toString c) },
      ?_, ?_, ?_, ?_⟩, ?_, ?_, ?_⟩
    · rw [addLog_servers]
      exact getEntry_setEntry_self _ _ _
    · simp [hc]
    · simp [hc]
    · rfl
    · rw [addLog_processes]
      exact getEntry_eraseEntry_self _ _
    · rw [addLog_runtimes]
      exact getEntry_eraseEntry_self _ _
    · rw [addLog_monitors]
      simp [List.mem_filter]

theorem claim6_witness :
    getEntry sampleBusyState.servers "a" = some sampleServerA ∧
    ((∃ server2,
      getEntry (handleProcessClose sampleBusyState "a" (some 1)).1.servers "a" =
        some server2 ∧
      server2.status = (if (1 : Int) = 0 then "stopped" else "error") ∧
      server2.error = (if (1 : Int) = 0 then none
        else some ("Process exited with code " ++ toString (1 : Int))) ∧
      server2.pid = none) ∧
    getEntry (handleProcessClose sampleBusyState "a" (some 1)).1.processes "a" =
      none ∧
    getEntry (handleProcessClose sampleBusyState "a" (some 1)).1.runtimes "a" =
      none ∧
    "a" ∉ (handleProcessClose sampleBusyState "a" (some 1)).1.monitors) :=
  ⟨rfl, claim6_process_exit sampleBusyState "a" 1 sampleServerA rfl⟩

/-- Server fields as `startServer` rewrites them on a successful spawn
(serverManager.js lines 421-424). -/
def startedServer (server : Server) (pid now : Int) : Server :=
  { server with
    status := "running", pid := some pid, startTime := some now,
    error := none }

/-- Log line written by `startServer` on a successful spawn (line 437). -/
def startLogMsg (server : Server) (pid : Int) : String :=
  "Server starting with command: \"" ++ server.command ++ "\" (PID: " ++
    toString pid ++ ")"

/-- Map contents after the synchronous mutations of a successful spawn:
tracked process registered, server marked running, runtime record
persisted. -/
def startedState (st : MgrState) (serverId : String) (server : Server)
    (pid now : Int) : MgrState :=
  { st with
    processes := setEntry st.processes serverId pid,
    servers := setEntry st.servers serverId (startedServer server pid now),
    runtimes := setEntry st.runtimes serverId
      ⟨serverId, server.name, server.path, server.command, pid, now⟩ }

theorem resourceInit_of_some (st : MgrState) (serverId : String) (s : Server)
    (h : getEntry st.servers serverId = some s) :
    startResourceMonitoringInit st serverId =
      ({ st with
          servers := setEntry st.servers serverId
            ({ s with cpu := some 0, memory := some 0 }),
          monitors := serverId :: st.monitors.filter (fun i => i ≠ serverId) },
        [MEvent.statusChanged ({ s with cpu := some 0, memory := some 0 })]) := by
  unfold startResourceMonitoringInit
  rw [h]

theorem startServer_ok_spec (st : MgrState) (serverId : String) (server : Server)
    (pid now : Int)
    (hs : getEntry st.servers serverId = some server)
    (hp : getEntry st.processes serverId = none) :
    startServer st serverId (SpawnOutcome.ok pid) now =
      ⟨(startResourceMonitoringInit
          (addLog (startedState st serverId server pid now) serverId "info"
            (startLogMsg server pid)).1 serverId).1,
        true, none,
        [MEvent.statusChanged (startedServer server pid now)] ++
          (addLog (startedState st serverId server pid now) serverId "info"
            (startLogMsg server pid)).2 ++
          (startResourceMonitoringInit
            (addLog (startedState st serverId server pid now) serverId "info"
              (startLogMsg server pid)).1 serverId).2,
        true, childEnvPORT server⟩ := by
  unfold startServer
  rw [hs, hp]
  rfl

/-- C4 (amended): a successful `start` moves the server's status directly
from `stopped` to `running` in the same synchronous transition — there is no
intermediate `starting` status in the supervisor — emits state-changed
events whose statuses are all `running`, and persists a runtime record for
the id. -/
theorem claim4_amended (st : MgrState) (serverId : String) (server : Server)
    (pid now : Int)
    (hs : getEntry st.servers serverId = some server)
    (_hstopped : server.status = "stopped")
    (hp : getEntry st.processes serverId = none) :
    (startServer st serverId (SpawnOutcome.ok pid) now).success = true ∧
    (∃ s2, getEntry
        (startServer st serverId (SpawnOutcome.ok pid) now).state.servers
          serverId = some s2 ∧
      s2.status = "running" ∧ s2.pid = some pid) ∧
    statusTrace (startServer st serverId (SpawnOutcome.ok pid) now).events =
      ["running", "running"] ∧
    "starting" ∉
      statusTrace (startServer st serverId (SpawnOutcome.ok pid) now).events ∧
    getEntry (startServer st serverId (SpawnOutcome.ok pid) now).state.runtimes
        serverId =
      some ⟨serverId, server.name, server.path, server.command, pid, now⟩ := by
  have hA : getEntry (addLog (startedState st serverId server pid now) serverId
      "info" (startLogMsg server pid)).1.servers serverId =
      some (startedServer server pid now) := by
    rw [addLog_servers]
    exact getEntry_setEntry_self _ _ _
  have hB := resourceInit_of_some
    (addLog (startedState st serverId server pid now) serverId "info"
      (startLogMsg server pid)).1 serverId (startedServer server pid now) hA
  rw [startServer_ok_spec st serverId server pid now hs hp]
  refine ⟨rfl, ?_, ?_, ?_, ?_⟩
  · rw [hB]
    exact ⟨_, getEntry_setEntry_self _ _ _, rfl, rfl⟩
  · rw [statusTrace_append, statusTrace_append, statusTrace_addLog, hB]
    rfl
  · rw [statusTrace_append, statusTrace_append, statusTrace_addLog, hB]
    simp [statusTrace, startedServer]
  · rw [hB]
    show getEntry (addLog (startedState st serverId server pid now) serverId
      "info" (startLogMsg server pid)).1.runtimes serverId = _
    rw [addLog_runtimes]
    exact getEntry_setEntry_self _ _ _

/-- Concrete stopped server for the start counterexample and witnesses. -/
def sampleStoppedServerA : Server :=
  { id := "a", name := "A", path := "/tmp/a", command := "npm start",
    port := some 3000, status := "stopped", pid := none, startTime := none,
    error := none, cpu := none, memory := none, actualPort := none,
    isManual := true }

/-- Concrete supervisor state with one stopped, untracked server. -/
def sampleIdleState : MgrState :=
  { servers := [("a", sampleStoppedServerA)], processes := [],
    logs := [("a", [])], runtimes := [], monitors := [] }

theorem claim4_witness :
    (startServer sampleIdleState "a" (SpawnOutcome.ok 42) 1000).success = true ∧
    (∃ s2, getEntry
        (startServer sampleIdleState "a" (SpawnOutcome.ok 42) 1000).state.servers
          "a" = some s2 ∧
      s2.status = "running" ∧ s2.pid = some 42) ∧
    statusTrace (startServer sampleIdleState "a" (SpawnOutcome.ok 42) 1000).events =
      ["running", "running"] ∧
    "starting" ∉
      statusTrace (startServer sampleIdleState "a" (SpawnOutcome.ok 42) 1000).events ∧
    getEntry (startServer sampleIdleState "a" (SpawnOutcome.ok 42) 1000).state.runtimes
        "a" = some ⟨"a", "A", "/tmp/a", "npm start", 42, 1000⟩ :=
  claim4_amended sampleIdleState "a" sampleStoppedServerA 42 1000 rfl rfl rfl

theorem claim4_counterexample :
    (startServer sampleIdleState "a" (SpawnOutcome.ok 42) 1000).success = true ∧
    statusTrace (startServer sampleIdleState "a" (SpawnOutcome.ok 42) 1000).events =
      ["running", "running"] ∧
    "starting" ∉
      statusTrace (startServer sampleIdleState "a" (SpawnOutcome.ok 42) 1000).events := by
  have hA : getEntry (addLog
      (startedState sampleIdleState "a" sampleStoppedServerA 42 1000) "a" "info"
      (startLogMsg sampleStoppedServerA 42)).1.servers "a" =
      some (startedServer sampleStoppedServerA 42 1000) := by
    rw [addLog_servers]
    exact getEntry_setEntry_self _ _ _
  have hB := resourceInit_of_some _ "a" _ hA
  rw [startServer_ok_spec sampleIdleState "a" sampleStoppedServerA 42 1000 rfl rfl]
  refine ⟨rfl, ?_, ?_⟩
  · rw [statusTrace_append, statusTrace_append, statusTrace_addLog, hB]
    rfl
  · rw [statusTrace_append, statusTrace_append, statusTrace_addLog, hB]
    simp [statusTrace, startedServer]

/-- C5 (amended): `start` injects PORT into the child environment exactly
when the stored port field of the server is truthy; because
`addManualServer` (and `updateServer`) always store a normalized port of at
least 1000 — defaulting to 3000 when the user supplied none or an invalid
one — a manually added server always receives an injected PORT, and only a
server whose stored port is null receives none. -/
theorem claim5_amended (st : MgrState) (serverId : String) (server : Server)
    (spawn : SpawnOutcome) (now : Int) (st0 : MgrState) (cfg : ServerConfigIn)
    (hs : getEntry st.servers serverId = some server)
    (hp : getEntry st.processes serverId = none)
    (hfresh : getEntry st0.servers cfg.id = none) :
    (startServer st serverId spawn now).envPORT = childEnvPORT server ∧
    (∀ p, server.port = some p → 1 ≤ p →
      childEnvPORT server = some (toString p)) ∧
    (server.port = none → childEnvPORT server = none) ∧
    (∃ s, getEntry (addManualServer st0 cfg).1.servers cfg.id = some s ∧
      childEnvPORT s = some (toString (normalizeManualPort cfg.port))) := by
  refine ⟨?_, ?_, ?_, ?_⟩
  · cases spawn with
    | ok pid =>
      rw [startServer_ok_spec st serverId server pid now hs hp]
    | threw msg =>
      simp [startServer, hs, hp]
  · intro p hpv hp1
    have hnz : (p != 0) = true := by
      simp only [bne_iff_ne, ne_eq]
      omega
    simp [childEnvPORT, numOptTruthy, hpv, hnz]
  · intro hnone
    simp [childEnvPORT, numOptTruthy, hnone]
  · have hf : (getEntry st0.servers cfg.id).isSome = false := by
      rw [hfresh]; rfl
    simp only [addManualServer, hf, Bool.false_eq_true, if_false]
    refine ⟨_, getEntry_setEntry_self _ _ _, ?_⟩
    have h1000 : 1000 ≤ normalizeManualPort cfg.port := by
      cases cfg.port with
      | int n =>
        unfold normalizeManualPort
        split <;> omega
      | nonInt => simp [normalizeManualPort]
    have hnz : (normalizeManualPort cfg.port != 0) = true := by
      simp only [bne_iff_ne, ne_eq]
      omega
    simp [childEnvPORT, numOptTruthy, hnz]

theorem claim5_witness :
    (startServer sampleIdleState "a" (SpawnOutcome.ok 42) 1000).envPORT =
      childEnvPORT sampleStoppedServerA ∧
    childEnvPORT sampleStoppedServerA = some "3000" :=
  ⟨(claim5_amended sampleIdleState "a" sampleStoppedServerA
      (SpawnOutcome.ok 42) 1000 (MgrState.mk [] [] [] [] [])
      ⟨"m", "M", "/tmp/m", "npm start", NumVal.nonInt⟩ rfl rfl rfl).1,
    by decide⟩

/-- Manual-add configuration in which the user supplied no port
(`Number(undefined)` is NaN). -/
def blankPortCfg : ServerConfigIn :=
  ⟨"m", "M", "/tmp/m", "npm start", NumVal.nonInt⟩

theorem claim5_counterexample :
    blankPortCfg.port = NumVal.nonInt ∧
    (startServer (addManualServer (MgrState.mk [] [] [] [] []) blankPortCfg).1
      "m" (SpawnOutcome.ok 7) 0).envPORT = some "3000" ∧
    (startServer (addManualServer (MgrState.mk [] [] [] [] []) blankPortCfg).1
      "m" (SpawnOutcome.ok 7) 0).envPORT ≠ none := by
  decide

/-- C10: a successful `addManualServer` or `updateServer` always leaves the
stored port equal to the supplied value when it is an integer in
`[1000, 65535]` and equal to `3000` otherwise; in particular the stored port
is never null. -/
theorem claim10_port_normalization (st st2 : MgrState) (cfg upd : ServerConfigIn)
    (outcome : StopOutcome) (s0 : Server)
    (hfresh : getEntry st.servers cfg.id = none)
    (hex : getEntry st2.servers upd.id = some s0) :
    (∃ s, getEntry (addManualServer st cfg).1.servers cfg.id = some s ∧
      s.port = some (normalizeManualPort cfg.port)) ∧
    (∃ s, getEntry (updateServer st2 upd outcome).1.servers upd.id = some s ∧
      s.port = some (normalizeManualPort upd.port)) ∧
    (∀ n, cfg.port = NumVal.int n → 1000 ≤ n → n ≤ 65535 →
      normalizeManualPort cfg.port = n) ∧
    (∀ n, cfg.port = NumVal.int n → (n < 1000 ∨ 65535 < n) →
      normalizeManualPort cfg.port = 3000) ∧
    (cfg.port = NumVal.nonInt → normalizeManualPort cfg.port = 3000) := by
  refine ⟨?_, ?_, ?_, ?_, ?_⟩
  · have hf : (getEntry st.servers cfg.id).isSome = false := by
      rw [hfresh]; rfl
    simp only [addManualServer, hf, Bool.false_eq_true, if_false]
    exact ⟨_, getEntry_setEntry_self _ _ _, rfl⟩
  · simp only [updateServer, hex]
    exact ⟨_, getEntry_setEntry_self _ _ _, rfl⟩
  · intro n hn h1 h2
    simp [hn, normalizeManualPort, h1, h2]
  · intro n hn hout
    have : ¬ (1000 ≤ n ∧ n ≤ 65535) := by omega
    simp [hn, normalizeManualPort, this]
  · intro hn
    simp [hn, normalizeManualPort]

/-! ### Resource Sampler -/

/-- Process-table row as consumed by the sampler (a `ps-list` entry): pid,
parent pid, and the cpu/memory figures after the source's
`parseFloat(x) || 0` / `isNaN` fallbacks (NaN and missing collapse to 0 at
this boundary, so the fields are plain rationals). -/
structure ProcInfo where
  pid : Int
  ppid : Int
  cpu : Rat
  memory : Rat
deriving DecidableEq, Repr

/-- One sampler tick either obtains a full process snapshot or fails (the
`psList` rejection or the 3s timeout race). -/
inductive SampleOutcome where
  | snapshot (procs : List ProcInfo)
  | failed
deriving DecidableEq, Repr

/-- Closure state of one `startResourceMonitoring` interval: the consecutive
`errorCount` and whether the interval is still scheduled. -/
structure SamplerState where
  errorCount : Nat
  active : Bool
deriving DecidableEq, Repr

/-- Displayed cpu figure: `Math.max(0, Math.min(totalCpu, 100)).toFixed(1)`
(clamp to [0,100], then round to one decimal place). -/
def cpuPercentOf (totalCpu : Rat) : Rat :=
  ((round (10 * max 0 (min totalCpu 100)) : ℤ) : ℚ) / 10

/-- Displayed memory figure: `Math.max(0, Math.round(totalMemory))`. -/
def memoryMBOf (totalMemory : Rat) : Rat :=
  max 0 ((round totalMemory : ℤ) : ℚ)

/-- Result of one sampler tick. -/
structure SampleStepResult where
  state : MgrState
  sampler : SamplerState
  events : List MEvent
deriving DecidableEq, Repr

/-- Embedding of the interval body of `startResourceMonitoring`
(serverManager.js lines 771-859): stop when the server is gone, untracked,
or no longer running; on a snapshot aggregate the root and up to ten direct
children; on failure bump the consecutive error counter and after the fifth
consecutive failure cancel the interval, freezing the readings at zero. -/
def resourceSampleStep (st : MgrState) (serverId : String) (ss : SamplerState)
    (outcome : SampleOutcome) : SampleStepResult :=
  match getEntry st.servers serverId, getEntry st.processes serverId with
  | some server, some rootPid =>
    if server.status ≠ "running" then
      ⟨{ st with monitors := st.monitors.filter (fun i => i ≠ serverId) },
        { ss with active := false }, []⟩
    else
      match outcome with
      | SampleOutcome.snapshot procs =>
        match procs.find? (fun p => decide (p.pid = rootPid)) with
        | some mainProc =>
          let children := (procs.filter (fun p => decide (p.ppid = rootPid))).take 10
          let rel := mainProc :: children
          let totalCpu := (rel.map (fun p => p.cpu)).sum
          let totalMemory := (rel.map (fun p => p.memory)).sum
          let server2 := { server with
            cpu := some (cpuPercentOf totalCpu),
            memory := some (memoryMBOf totalMemory) }
          ⟨{ st with servers := setEntry st.servers serverId server2 },
            { ss with errorCount := 0 }, [MEvent.statusChanged server2]⟩
        | none =>
          let server2 := { server with cpu := some 0, memory := some 0 }
          ⟨{ st with servers := setEntry st.servers serverId server2 },
            ss, [MEvent.statusChanged server2]⟩
      | SampleOutcome.failed =>
        let server2 := { server with cpu := some 0, memory := some 0 }
        if 5 ≤ ss.errorCount + 1 then
          ⟨{ st with
              servers := setEntry st.servers serverId server2,
              monitors := st.monitors.filter (fun i => i ≠ serverId) },
            ⟨ss.errorCount + 1, false⟩, [MEvent.statusChanged server2]⟩
        else
          ⟨{ st with servers := setEntry st.servers serverId server2 },
            ⟨ss.errorCount + 1, ss.active⟩, [MEvent.statusChanged server2]⟩
  | _, _ =>
    ⟨{ st with monitors := st.monitors.filter (fun i => i ≠ serverId) },
      { ss with active := false }, []⟩

/-- A run of consecutive sampler ticks; a tick that cancels the interval
(`active = false`) is the last one, as the OS timer is gone. -/
def resourceSampleRun (st : MgrState) (serverId : String) (ss : SamplerState) :
    List SampleOutcome → MgrState × SamplerState
  | [] => (st, ss)
  | o :: rest =>
    let r := resourceSampleStep st serverId ss o
    if r.sampler.active = false then (r.state, r.sampler)
    else resourceSampleRun r.state serverId r.sampler rest

theorem cpuPercentOf_bounds (t : Rat) :
    0 ≤ cpuPercentOf t ∧ cpuPercentOf t ≤ 100 := by
  unfold cpuPercentOf
  have h0 : (0 : ℚ) ≤ max 0 (min t 100) := le_max_left 0 _
  have h1 : max 0 (min t 100) ≤ 100 := max_le (by norm_num) (min_le_right t 100)
  have hlow : ((-1 : ℤ) : ℚ) < ((round (10 * max 0 (min t 100)) : ℤ) : ℚ) := by
    have := sub_half_lt_round (10 * max 0 (min t 100))
    push_cast
    push_cast at this
    linarith
  have hlow2 : (0 : ℤ) ≤ round (10 * max 0 (min t 100)) := by
    have := Int.cast_lt.mp hlow
    omega
  have hhigh : ((round (10 * max 0 (min t 100)) : ℤ) : ℚ) < ((1001 : ℤ) : ℚ) := by
    have := round_le_add_half (10 * max 0 (min t 100))
    push_cast
    push_cast at this
    linarith
  have hhigh2 : round (10 * max 0 (min t 100)) ≤ 1000 := by
    have := Int.cast_lt.mp hhigh
    omega
  constructor
  · apply div_nonneg _ (by norm_num : (0 : ℚ) ≤ 10)
    exact_mod_cast hlow2
  · rw [div_le_iff₀ (by norm_num : (0 : ℚ) < 10)]
    calc ((round (10 * max 0 (min t 100)) : ℤ) : ℚ) ≤ ((1000 : ℤ) : ℚ) := by
          exact_mod_cast hhigh2
      _ = 100 * 10 := by norm_num

theorem memoryMBOf_nonneg (t : Rat) : 0 ≤ memoryMBOf t :=
  le_max_left 0 _

theorem sampleStep_failed_lt5 (st : MgrState) (serverId : String)
    (ss : SamplerState) (server : Server) (rootPid : Int)
    (hs : getEntry st.servers serverId = some server)
    (hrun : server.status = "running")
    (hp : getEntry st.processes serverId = some rootPid)
    (hec : ss.errorCount + 1 < 5) :
    resourceSampleStep st serverId ss SampleOutcome.failed =
      ⟨{ st with
          servers := setEntry st.servers serverId
            ({ server with cpu := some 0, memory := some 0 }) },
        ⟨ss.errorCount + 1, ss.active⟩,
        [MEvent.statusChanged ({ server with cpu := some 0, memory := some 0 })]⟩ := by
  unfold resourceSampleStep
  rw [hs, hp]
  simp only []
  rw [if_neg (by simp [hrun])]
  rw [if_neg (by omega)]

theorem sampleStep_failed_eq5 (st : MgrState) (serverId : String)
    (ss : SamplerState) (server : Server) (rootPid : Int)
    (hs : getEntry st.servers serverId = some server)
    (hrun : server.status = "running")
    (hp : getEntry st.processes serverId = some rootPid)
    (hec : 5 ≤ ss.errorCount + 1) :
    resourceSampleStep st serverId ss SampleOutcome.failed =
      ⟨{ st with
          servers := setEntry st.servers serverId
            ({ server with cpu := some 0, memory := some 0 }),
          monitors := st.monitors.filter (fun i => i ≠ serverId) },
        ⟨ss.errorCount + 1, false⟩,
        [MEvent.statusChanged ({ server with cpu := some 0, memory := some 0 })]⟩ := by
  unfold resourceSampleStep
  rw [hs, hp]
  simp only []
  rw [if_neg (by simp [hrun])]
  rw [if_pos hec]

theorem sampler_failures_shutdown :
    ∀ (n : Nat) (st : MgrState) (serverId : String) (ss : SamplerState)
      (server : Server) (rootPid : Int),
      getEntry st.servers serverId = some server →
      server.status = "running" →
      getEntry st.processes serverId = some rootPid →
      ss.active = true → 1 ≤ n → ss.errorCount + n = 5 →
      (resourceSampleRun st serverId ss
        (List.replicate n SampleOutcome.failed)).2.active = false ∧
      (resourceSampleRun st serverId ss
        (List.replicate n SampleOutcome.failed)).2.errorCount = 5 ∧
      getEntry (resourceSampleRun st serverId ss
          (List.replicate n SampleOutcome.failed)).1.servers serverId =
        some ({ server with cpu := some 0, memory := some 0 }) := by
  intro n
  induction n with
  | zero =>
    intro st serverId ss server rootPid _ _ _ _ h1 _
    omega
  | succ m ih =>
    intro st serverId ss server rootPid hs hrun hp hact h1 hsum
    by_cases hm : m = 0
    · subst hm
      have hec : 5 ≤ ss.errorCount + 1 := by omega
      rw [List.replicate_succ, List.replicate_zero]
      simp only [resourceSampleRun]
      rw [sampleStep_failed_eq5 st serverId ss server rootPid hs hrun hp hec]
      simp only [if_pos rfl]
      refine ⟨rfl, by simp; omega, ?_⟩
      exact getEntry_setEntry_self _ _ _
    · have hm1 : 1 ≤ m := by omega
      have hec : ss.errorCount + 1 < 5 := by omega
      rw [List.replicate_succ]
      simp only [resourceSampleRun]
      rw [sampleStep_failed_lt5 st serverId ss server rootPid hs hrun hp hec]
      rw [if_neg (by simp [hact])]
      have hres := ih
        ({ st with
            servers := setEntry st.servers serverId
              ({ server with cpu := some 0, memory := some 0 }) })
        serverId ⟨ss.errorCount + 1, ss.active⟩
        ({ server with cpu := some 0, memory := some 0 }) rootPid
        (getEntry_setEntry_self _ _ _) hrun hp (by simp [hact]) hm1
        (by simp; omega)
      exact hres

/-- C8: every reading emitted by a sampler tick for a running tracked server
has a cpu value within [0,100] and a nonnegative memory value; and five
consecutive sampling failures cancel the interval and leave both readings
frozen at zero with the server's status untouched. -/
theorem claim8_resource_sampler (st : MgrState) (serverId : String)
    (server : Server) (rootPid : Int)
    (hs : getEntry st.servers serverId = some server)
    (hrun : server.status = "running")
    (hp : getEntry st.processes serverId = some rootPid) :
    (∀ (ss : SamplerState) (outcome : SampleOutcome) (s2 : Server),
      MEvent.statusChanged s2 ∈ (resourceSampleStep st serverId ss outcome).events →
      (∀ x, s2.cpu = some x → 0 ≤ x ∧ x ≤ 100) ∧
      (∀ m, s2.memory = some m → 0 ≤ m)) ∧
    ((resourceSampleRun st serverId ⟨0, true⟩
        (List.replicate 5 SampleOutcome.failed)).2.active = false ∧
      ∃ s2, getEntry (resourceSampleRun st serverId ⟨0, true⟩
          (List.replicate 5 SampleOutcome.failed)).1.servers serverId = some s2 ∧
        s2.cpu = some 0 ∧ s2.memory = some 0 ∧ s2.status = server.status) := by
  constructor
  · intro ss outcome s2 hmem
    unfold resourceSampleStep at hmem
    rw [hs, hp] at hmem
    simp only [] at hmem
    rw [if_neg (by simp [hrun])] at hmem
    cases outcome with
    | snapshot procs =>
      revert hmem
      cases hfind : procs.find? (fun p => decide (p.pid = rootPid)) with
      | some mainProc =>
        intro hmem
        simp only [hfind, List.mem_singleton, MEvent.statusChanged.injEq] at hmem
        subst hmem
        constructor
        · intro x hx
          simp only [Option.some_inj] at hx
          rw [← hx]
          exact cpuPercentOf_bounds _
        · intro m hm
          simp only [Option.some_inj] at hm
          rw [← hm]
          exact memoryMBOf_nonneg _
      | none =>
        intro hmem
        simp only [hfind, List.mem_singleton, MEvent.statusChanged.injEq] at hmem
        subst hmem
        constructor
        · intro x hx
          simp only [Option.some_inj] at hx
          rw [← hx]
          norm_num
        · intro m hm
          simp only [Option.some_inj] at hm
          rw [← hm]
    | failed =>
      by_cases hec : 5 ≤ ss.errorCount + 1
      · rw [if_pos hec] at hmem
        simp only [List.mem_singleton, MEvent.statusChanged.injEq] at hmem
        subst hmem
        refine ⟨fun x hx => ?_, fun m hm => ?_⟩
        · simp only [Option.some_inj] at hx
          rw [← hx]
          norm_num
        · simp only [Option.some_inj] at hm
          rw [← hm]
      · rw [if_neg hec] at hmem
        simp only [List.mem_singleton, MEvent.statusChanged.injEq] at hmem
        subst hmem
        refine ⟨fun x hx => ?_, fun m hm => ?_⟩
        · simp only [Option.some_inj] at hx
          rw [← hx]
          norm_num
        · simp only [Option.some_inj] at hm
          rw [← hm]
  · have h := sampler_failures_shutdown 5 st serverId ⟨0, true⟩ server rootPid
      hs hrun hp rfl (by norm_num) (by norm_num)
    exact ⟨h.1, ⟨_, h.2.2, rfl, rfl, rfl⟩⟩

/-! ### Port Discovery loop -/

/-- Closure state of one `waitAndSyncPortFromPid` run (serverManager.js
lines 1128-1131): the last observed best port, the consecutive-observation
counter, and the last committed port. -/
structure DiscoveryState where
  lastObservedPort : Option Int
  consecutiveSamePort : Nat
  lastCommittedPort : Option Int
deriving DecidableEq, Repr

/-- One poll of the discovery loop: the elapsed time at which the tick fires
and the candidates produced by the pgid / pid-tree detection, already
enriched with their owner command lines (lines 1141-1165). -/
structure Observation where
  elapsedMs : Int
  candidates : List Candidate
deriving DecidableEq, Repr

/-- Ports the loop never considers (`ignoredPorts`, line 1132). -/
def isIgnoredPort (p : Int) : Bool :=
  p == 9229 || p == 9230 || p == 9231 || p == 9239

/-- Candidate filter of the loop body (lines 1149-1154): a truthy in-range
port outside the ignored set. -/
def filterCandidates (cands : List Candidate) : List Candidate :=
  cands.filter (fun c => decide (1 ≤ c.port) && decide (c.port ≤ 65535) &&
    !(isIgnoredPort c.port))

/-- Nest-context detection over the enriched candidates (line 1168). -/
def isNestContextOf (isNestCL : String → Bool) (cands : List Candidate) : Bool :=
  cands.any (fun c => applyCmdLine isNestCL c.commandLine)

/-- Normalized user-configured port as read at the top of each poll
(`normalizePortValue(server.port)`, line 1139). -/
def expectedPortOf (server : Server) : Option Int :=
  match server.port with
  | some n => normalizePortValue (NumVal.int n)
  | none => none

/-- Best candidate a poll selects: filter, Nest-context computation, then
`selectBestPortCandidate` (lines 1149-1170). -/
def observationBest (isNestCL isNonNestCL : String → Bool)
    (expectedPort : Option Int) (obs : Observation) : Option Candidate :=
  selectBestPortCandidate isNestCL isNonNestCL (filterCandidates obs.candidates)
    expectedPort (isNestContextOf isNestCL (filterCandidates obs.candidates))

/-- Result of one poll: possibly-updated supervisor state, updated closure
state, emitted events, and whether the loop returned without scheduling the
next tick. -/
structure DiscoveryStepResult where
  state : MgrState
  disc : DiscoveryState
  events : List MEvent
  finished : Bool
deriving DecidableEq, Repr

/-- Embedding of one tick of the `loop` closure of `waitAndSyncPortFromPid`
(serverManager.js lines 1133-1245): select the best candidate, apply the
Nest warm-up suppression, track consecutive observations, update the
listening pid, and commit `actualPort` when the port matches the configured
one exactly or has been observed stably — unless the freeze-to-HTTP-band
rule suppresses a 5000+ port after a 3000-4999 commit. -/
def waitSyncPortStep (isNestCL isNonNestCL : String → Bool) (st : MgrState)
    (serverId : String) (ds : DiscoveryState) (obs : Observation) :
    DiscoveryStepResult :=
  match getEntry st.servers serverId with
  | none => ⟨st, ds, [], true⟩
  | some server =>
    let expectedPort := expectedPortOf server
    let candidates := filterCandidates obs.candidates
    if candidates.isEmpty = true then ⟨st, ds, [], false⟩
    else
      let isNestContext := isNestContextOf isNestCL candidates
      match observationBest isNestCL isNonNestCL expectedPort obs with
      | none => ⟨st, ds, [], false⟩
      | some info =>
        if info.port = 0 then ⟨st, ds, [], false⟩
        else
          let selectedIsNest := applyCmdLine isNestCL info.commandLine
          let hasMultipleCandidates := decide (1 < candidates.length)
          let requiredConsecutive : Nat :=
            if expectedPort.isSome = true then 2
            else if hasMultipleCandidates = true then
              (if selectedIsNest = true then 2 else 6)
            else 2
          let hasLowerPortCandidate := candidates.any
            (fun c => decide (3000 ≤ c.port) && decide (c.port < 5000))
          let nestWarmupMs : Int := if isNestContext = true then 2000 else 0
          if nestWarmupMs ≠ 0 ∧ obs.elapsedMs < nestWarmupMs ∧
              hasLowerPortCandidate = false ∧ 5000 ≤ info.port then
            ⟨st, ds, [], false⟩
          else
            let ds1 : DiscoveryState :=
              if ds.lastObservedPort = some info.port then
                { ds with consecutiveSamePort := ds.consecutiveSamePort + 1 }
              else
                { ds with
                  lastObservedPort := some info.port,
                  consecutiveSamePort := 1 }
            let pidChanged := decide (info.pid ≠ 0) &&
              !(decide (server.pid = some info.pid))
            let server1 :=
              if pidChanged = true then { server with pid := some info.pid }
              else server
            let shouldAcceptImmediately := decide (expectedPort = some info.port)
            let isStableEnough :=
              decide (requiredConsecutive ≤ ds1.consecutiveSamePort)
            let freezeToHttpPort :=
              match ds.lastCommittedPort with
              | some lc => decide (lc ≠ 0) && decide (3000 ≤ lc) &&
                  decide (lc < 5000)
              | none => false
            if freezeToHttpPort = true ∧ shouldAcceptImmediately = false ∧
                some info.port ≠ ds.lastCommittedPort ∧ 5000 ≤ info.port then
              ⟨(if pidChanged = true then
                  { st with servers := setEntry st.servers serverId server1 }
                else st), ds1, [], false⟩
            else
              let commit := decide (info.port ≠ 0) &&
                (shouldAcceptImmediately || isStableEnough) &&
                !(decide (server1.actualPort = some info.port))
              let server2 :=
                if commit = true then { server1 with actualPort := some info.port }
                else server1
              let ds2 :=
                if commit = true then { ds1 with lastCommittedPort := some info.port }
                else ds1
              let changed := pidChanged || commit
              let st1 :=
                if changed = true then
                  { st with servers := setEntry st.servers serverId server2 }
                else st
              let ev := if changed = true then [MEvent.statusChanged server2] else []
              let logRes :=
                if commit = true then
                  addLog st1 serverId "info"
                    ("Detected listening port: " ++ toString info.port ++
                      (if info.pid ≠ 0 then " (PID: " ++ toString info.pid ++ ")"
                       else ""))
                else (st1, [])
              ⟨logRes.1, ds2, ev ++ logRes.2, shouldAcceptImmediately⟩

/-- A run of discovery polls; a tick on which the loop returned (configured
port confirmed, or the server disappeared) is the last one, and the overall
timeout is the end of the observation list. -/
def waitSyncPortRun (isNestCL isNonNestCL : String → Bool) (st : MgrState)
    (serverId : String) (ds : DiscoveryState) :
    List Observation → MgrState × DiscoveryState
  | [] => (st, ds)
  | o :: rest =>
    let r := waitSyncPortStep isNestCL isNonNestCL st serverId ds o
    if r.finished = true then (r.state, r.disc)
    else waitSyncPortRun isNestCL isNonNestCL r.state serverId r.disc rest

/-- Discovered-port field of a tracked server, if the server exists. -/
def serverActualPort (st : MgrState) (serverId : String) : Option (Option Int) :=
  (getEntry st.servers serverId).map (fun s => s.actualPort)

/-- C2 (amended): once a port in the HTTP band (3000-4999) has been
committed for a run, a later poll whose best candidate has a port ≥ 5000
leaves `actualPort` untouched — unless that candidate's port equals the
user-configured port exactly, which is accepted immediately and is the one
exception to the freeze rule.  The theorem states the frozen case: any best
candidate with port ≥ 5000 that differs from the configured port cannot
overwrite. -/
theorem claim2_http_band_freeze (isNestCL isNonNestCL : String → Bool)
    (st : MgrState) (serverId : String) (server : Server)
    (ds : DiscoveryState) (obs : Observation) (lc : Int)
    (hs : getEntry st.servers serverId = some server)
    (hlc : ds.lastCommittedPort = some lc)
    (hband1 : 3000 ≤ lc) (hband2 : lc < 5000)
    (hbest : ∀ c, observationBest isNestCL isNonNestCL (expectedPortOf server)
      obs = some c → 5000 ≤ c.port ∧ expectedPortOf server ≠ some c.port) :
    serverActualPort
        (waitSyncPortStep isNestCL isNonNestCL st serverId ds obs).state
        serverId =
      serverActualPort st serverId := by
  unfold waitSyncPortStep
  rw [hs]
  simp only []
  by_cases hemp : (filterCandidates obs.candidates).isEmpty = true
  · rw [if_pos hemp]
  · rw [if_neg hemp]
    cases hob : observationBest isNestCL isNonNestCL (expectedPortOf server) obs with
    | none => simp only [hob]
    | some info =>
      simp only [hob, hlc]
      obtain ⟨h5000, hnx⟩ := hbest info hob
      rw [if_neg (show ¬ info.port = 0 by omega)]
      by_cases hnest :
          isNestContextOf isNestCL (filterCandidates obs.candidates) = true
      · rw [if_pos hnest]
        split
        · rfl
        · rw [if_pos (show
            (decide (lc ≠ 0) && decide (3000 ≤ lc) && decide (lc < 5000)) = true ∧
              decide (expectedPortOf server = some info.port) = false ∧
              some info.port ≠ some lc ∧ 5000 ≤ info.port from
            ⟨by simp only [Bool.and_eq_true, decide_eq_true_eq]; omega,
              decide_eq_false hnx,
              by simp only [ne_eq, Option.some_inj]; omega,
              h5000⟩)]
          by_cases hpid :
              (decide (info.pid ≠ 0) && !decide (server.pid = some info.pid)) = true
          · simp only [if_pos hpid]
            unfold serverActualPort
            rw [getEntry_setEntry_self, hs]
            rfl
          · simp only [if_neg hpid]
      · rw [if_neg hnest]
        rw [if_neg (show ¬ ((0 : Int) ≠ 0 ∧ obs.elapsedMs < 0 ∧
            ((filterCandidates obs.candidates).any
              (fun c => decide (3000 ≤ c.port) && decide (c.port < 5000))) = false ∧
            5000 ≤ info.port) from by simp)]
        rw [if_pos (show
          (decide (lc ≠ 0) && decide (3000 ≤ lc) && decide (lc < 5000)) = true ∧
            decide (expectedPortOf server = some info.port) = false ∧
            some info.port ≠ some lc ∧ 5000 ≤ info.port from
          ⟨by simp only [Bool.and_eq_true, decide_eq_true_eq]; omega,
            decide_eq_false hnx,
            by simp only [ne_eq, Option.some_inj]; omega,
            h5000⟩)]
        by_cases hpid :
            (decide (info.pid ≠ 0) && !decide (server.pid = some info.pid)) = true
        · simp only [if_pos hpid]
          unfold serverActualPort
          rw [getEntry_setEntry_self, hs]
          rfl
        · simp only [if_neg hpid]

/-- Running server with no configured port and an already-committed
HTTP-band actual port, for the freeze witness. -/
def discServer : Server :=
  { id := "d", name := "D", path := "/tmp/d", command := "npm start",
    port := none, status := "running", pid := some 10, startTime := some 0,
    error := none, cpu := none, memory := none, actualPort := some 3000,
    isManual := true }

/-- Supervisor state for the freeze witness. -/
def discState : MgrState :=
  { servers := [("d", discServer)], processes := [("d", 10)],
    logs := [("d", [])], runtimes := [], monitors := [] }

theorem claim2_witness :
    serverActualPort
        (waitSyncPortStep (fun _ => false) (fun _ => false) discState "d"
          (DiscoveryState.mk (some 3000) 2 (some 3000))
          (Observation.mk 3000 [Candidate.mk 8000 12 "node" none false])).state
        "d" =
      serverActualPort discState "d" :=
  claim2_http_band_freeze (fun _ => false) (fun _ => false) discState "d"
    discServer (DiscoveryState.mk (some 3000) 2 (some 3000))
    (Observation.mk 3000 [Candidate.mk 8000 12 "node" none false]) 3000
    rfl rfl (by decide) (by decide)
    (by
      intro c hc
      have he : observationBest (fun _ => false) (fun _ => false)
          (expectedPortOf discServer)
          (Observation.mk 3000 [Candidate.mk 8000 12 "node" none false]) =
          some (Candidate.mk 8000 12 "node" none false) := by decide
      rw [he] at hc
      obtain rfl : Candidate.mk 8000 12 "node" none false = c :=
        Option.some_inj.mp hc
      exact ⟨by decide, by decide⟩)

/-- Running server whose user-configured port is 5000, for the freeze
counterexample. -/
def cexServer : Server :=
  { id := "b", name := "B", path := "/tmp/b", command := "npm start",
    port := some 5000, status := "running", pid := some 20, startTime := some 0,
    error := none, cpu := none, memory := none, actualPort := none,
    isManual := true }

/-- Supervisor state for the freeze counterexample. -/
def cexState : MgrState :=
  { servers := [("b", cexServer)], processes := [("b", 20)],
    logs := [("b", [])], runtimes := [], monitors := [] }

theorem claim2_counterexample :
    serverActualPort
        (waitSyncPortRun (fun _ => false) (fun _ => false) cexState "b"
          (DiscoveryState.mk none 0 none)
          [Observation.mk 300 [Candidate.mk 3000 21 "node" none false],
           Observation.mk 600 [Candidate.mk 3000 21 "node" none false]]).1
        "b" = some (some 3000) ∧
    (waitSyncPortRun (fun _ => false) (fun _ => false) cexState "b"
        (DiscoveryState.mk none 0 none)
        [Observation.mk 300 [Candidate.mk 3000 21 "node" none false],
         Observation.mk 600 [Candidate.mk 3000 21 "node" none false]]).2.lastCommittedPort
      = some 3000 ∧
    observationBest (fun _ => false) (fun _ => false) (some 5000)
        (Observation.mk 900 [Candidate.mk 5000 22 "node" none false]) =
      some (Candidate.mk 5000 22 "node" none false) ∧
    serverActualPort
        (waitSyncPortStep (fun _ => false) (fun _ => false)
          (waitSyncPortRun (fun _ => false) (fun _ => false) cexState "b"
            (DiscoveryState.mk none 0 none)
            [Observation.mk 300 [Candidate.mk 3000 21 "node" none false],
             Observation.mk 600 [Candidate.mk 3000 21 "node" none false]]).1
          "b"
          (waitSyncPortRun (fun _ => false) (fun _ => false) cexState "b"
            (DiscoveryState.mk none 0 none)
            [Observation.mk 300 [Candidate.mk 3000 21 "node" none false],
             Observation.mk 600 [Candidate.mk 3000 21 "node" none false]]).2
          (Observation.mk 900 [Candidate.mk 5000 22 "node" none false])).state
        "b" = some (some 5000) := by
  decide

/-! ### Stale-Instance Reconciler -/

/-- OS facts the reconciler gathers about a recorded pid: liveness
(`isProcessAlive`), the `ps -o lstart=` start time in ms
(`getProcessStartTimeMs`, null on failure), and the current working
directory (`getProcessCwdByPid`, null on failure). -/
structure OsProbe where
  alive : Bool
  procStartMs : Option Int
  cwd : Option String
deriving DecidableEq, Repr

/-- Button chosen in the leftover-process dialog
(`['Terminate', 'Continue', 'Cancel']`). -/
inductive UserChoice where
  | terminateChoice
  | continueChoice
  | cancelChoice
deriving DecidableEq, Repr

/-- Result of a reconciler pass: the surviving `serverRuntimes` store, the
`ok`/`cleaned`/`canceled` flags of the source's return object, and whether
any terminate signal was sent to the recorded pid. -/
structure CleanupResult where
  runtimes : List (String × RuntimeRecord)
  ok : Bool
  cleaned : Bool
  canceled : Bool
  signaled : Bool
deriving DecidableEq, Repr

/-- Embedding of `cleanupStaleServerProcessForServer` (main-window manager):
no record or a falsy recorded pid is a no-op; a dead pid, a start-time
mismatch beyond the two-minute tolerance, or a working directory outside the
recorded path each discard the record without signaling; otherwise the
process is a genuine leftover and the terminate/continue/cancel protocol
runs.  The recorded pid is stored by `persistServerRuntime` as an integer,
so the source's `Number.isInteger` re-check cannot fire here. -/
def cleanupStaleServerProcessForServer
    (runtimes : List (String × RuntimeRecord)) (serverId : String)
    (probe : OsProbe) (prompt : Bool) (choice : UserChoice)
    (terminateOk : Bool) : CleanupResult :=
  match getEntry runtimes serverId with
  | none => ⟨runtimes, true, false, false, false⟩
  | some rt =>
    if rt.rootPid = 0 then ⟨runtimes, true, false, false, false⟩
    else if probe.alive = false then
      ⟨eraseEntry runtimes serverId, true, true, false, false⟩
    else if (match probe.procStartMs with
        | some ps => decide (ps ≠ 0) && decide (rt.startedAt ≠ 0) &&
            decide (2 * 60 * 1000 < (ps - rt.startedAt).natAbs)
        | none => false) = true then
      ⟨eraseEntry runtimes serverId, true, true, false, false⟩
    else if (match probe.cwd with
        | some c => decide (rt.path ≠ "") && decide (c ≠ "") &&
            !(c.startsWith rt.path)
        | none => false) = true then
      ⟨eraseEntry runtimes serverId, true, true, false, false⟩
    else if prompt = false then
      ⟨eraseEntry runtimes serverId, terminateOk, terminateOk, false, true⟩
    else
      match choice with
      | UserChoice.cancelChoice => ⟨runtimes, false, false, true, false⟩
      | UserChoice.terminateChoice =>
        if terminateOk then
          ⟨eraseEntry runtimes serverId, true, true, false, true⟩
        else ⟨runtimes, false, false, false, true⟩
      | UserChoice.continueChoice =>
        ⟨eraseEntry runtimes serverId, true, true, false, false⟩

/-- C9: a persisted runtime record naming a live pid whose OS-reported start
time differs from the recorded start time by more than the two-minute
tolerance is treated as stale: it is discarded (lookup afterwards is empty,
the pass reports ok/cleaned) and no signal is sent to the process. -/
theorem claim9_stale_record_discarded
    (runtimes : List (String × RuntimeRecord)) (serverId : String)
    (rt : RuntimeRecord) (probe : OsProbe) (prompt : Bool)
    (choice : UserChoice) (terminateOk : Bool) (ps : Int)
    (hrt : getEntry runtimes serverId = some rt)
    (hpid : rt.rootPid ≠ 0)
    (halive : probe.alive = true)
    (hps : probe.procStartMs = some ps)
    (hps0 : ps ≠ 0) (hst0 : rt.startedAt ≠ 0)
    (hdiff : 2 * 60 * 1000 < (ps - rt.startedAt).natAbs) :
    cleanupStaleServerProcessForServer runtimes serverId probe prompt choice
        terminateOk =
      ⟨eraseEntry runtimes serverId, true, true, false, false⟩ ∧
    getEntry (cleanupStaleServerProcessForServer runtimes serverId probe prompt
        choice terminateOk).runtimes serverId = none := by
  have hform : cleanupStaleServerProcessForServer runtimes serverId probe prompt
      choice terminateOk =
      ⟨eraseEntry runtimes serverId, true, true, false, false⟩ := by
    unfold cleanupStaleServerProcessForServer
    rw [hrt]
    simp only []
    rw [if_neg hpid]
    rw [if_neg (by simp [halive])]
    rw [if_pos (by simp [hps, hps0, hst0, hdiff])]
  refine ⟨hform, ?_⟩
  rw [hform]
  exact getEntry_eraseEntry_self _ _

theorem claim9_witness :
    cleanupStaleServerProcessForServer
        [("a", RuntimeRecord.mk "a" "A" "/tmp/a" "npm start" 77 1000000)] "a"
        (OsProbe.mk true (some 2000000) none) true
        UserChoice.terminateChoice true =
      ⟨eraseEntry [("a", RuntimeRecord.mk "a" "A" "/tmp/a" "npm start" 77 1000000)]
        "a", true, true, false, false⟩ ∧
    getEntry (cleanupStaleServerProcessForServer
        [("a", RuntimeRecord.mk "a" "A" "/tmp/a" "npm start" 77 1000000)] "a"
        (OsProbe.mk true (some 2000000) none) true
        UserChoice.terminateChoice true).runtimes "a" = none :=
  claim9_stale_record_discarded
    [("a", RuntimeRecord.mk "a" "A" "/tmp/a" "npm start" 77 1000000)] "a"
    (RuntimeRecord.mk "a" "A" "/tmp/a" "npm start" 77 1000000)
    (OsProbe.mk true (some 2000000) none) true
    UserChoice.terminateChoice true 2000000
    rfl (by decide) rfl rfl (by decide) (by decide) (by decide)

theorem claim8_witness :
    (resourceSampleRun sampleBusyState "a" ⟨0, true⟩
        (List.replicate 5 SampleOutcome.failed)).2.active = false ∧
    ∃ s2, getEntry (resourceSampleRun sampleBusyState "a" ⟨0, true⟩
        (List.replicate 5 SampleOutcome.failed)).1.servers "a" = some s2 ∧
      s2.cpu = some 0 ∧ s2.memory = some 0 ∧ s2.status = sampleServerA.status :=
  (claim8_resource_sampler sampleBusyState "a" sampleServerA 10 rfl rfl rfl).2

theorem claim10_witness :
    (∃ s, getEntry (addManualServer (MgrState.mk [] [] [] [] [])
        ⟨"m", "M", "/tmp/m", "echo", NumVal.nonInt⟩).1.servers "m" = some s ∧
      s.port = some (normalizeManualPort NumVal.nonInt)) ∧
    normalizeManualPort NumVal.nonInt = 3000 ∧
    normalizeManualPort (NumVal.int 4321) = 4321 ∧
    normalizeManualPort (NumVal.int 80) = 3000 :=
  ⟨(claim10_port_normalization (MgrState.mk [] [] [] [] []) sampleBusyState
      ⟨"m", "M", "/tmp/m", "echo", NumVal.nonInt⟩
      ⟨"a", "A", "/tmp/a", "echo", NumVal.int 4321⟩
      StopOutcome.exitedInGrace sampleServerA rfl rfl).1,
    by decide, by decide, by decide⟩

end GuiProcMan
